import Mathlib

/-!
Shallow embedding of `src/ai_hr_tweet_generator_production.py`.

All Python strings are modelled as `List Char` (Python `str` indexing and
slicing act on code points, which `List Char` mirrors exactly).  External
effects (the search requests, the generative-text service call, the webhook
POST, the wall clock) are passed in as explicit parameters; everything the
program itself computes is translated function by function from the source.
-/

/-- A JSON value, as produced by Python's `json.loads`.  Numbers keep their
source lexeme (the claims never inspect numeric values, so no float
semantics are needed); object keys are kept in source order. -/
inductive Json where
  | null : Json
  | bool (b : Bool) : Json
  | num (lexeme : List Char) : Json
  | str (s : List Char) : Json
  | arr (elems : List Json) : Json
  | obj (members : List (List Char × Json)) : Json

/-- JSON whitespace, per RFC 8259 / Python's `json` module. -/
def isJsonWs (c : Char) : Bool :=
  c = ' ' || c = '\t' || c = '\n' || c = '\r'

/-- Drop leading JSON whitespace. -/
def skipWs : List Char → List Char
  | [] => []
  | c :: t => if isJsonWs c then skipWs t else c :: t

/-- Value of a hexadecimal digit, if any. -/
def hexVal (c : Char) : Option Nat :=
  if '0' ≤ c ∧ c ≤ '9' then some (c.toNat - 48)
  else if 'a' ≤ c ∧ c ≤ 'f' then some (c.toNat - 87)
  else if 'A' ≤ c ∧ c ≤ 'F' then some (c.toNat - 55)
  else none

/-- Decoding of a single-character JSON string escape. -/
def escChar (c : Char) : Option Char :=
  if c = '"' then some '"'
  else if c = '\\' then some '\\'
  else if c = '/' then some '/'
  else if c = 'b' then some (Char.ofNat 8)
  else if c = 'f' then some (Char.ofNat 12)
  else if c = 'n' then some '\n'
  else if c = 'r' then some '\r'
  else if c = 't' then some '\t'
  else none

/-- Parse the body of a JSON string (the opening quote already consumed),
returning the decoded characters and the input after the closing quote. -/
def parseStrBody (fuel : Nat) (s : List Char) : Option (List Char × List Char) :=
  match fuel, s with
  | 0, _ => none
  | _, [] => none
  | f + 1, c :: rest =>
    if c = '"' then some ([], rest)
    else if c = '\\' then
      match rest with
      | [] => none
      | e :: rest2 =>
        if e = 'u' then
          match rest2 with
          | a :: b :: c2 :: d :: rest3 =>
            match hexVal a, hexVal b, hexVal c2, hexVal d with
            | some ha, some hb, some hc, some hd =>
              (parseStrBody f rest3).map
                (fun p => (Char.ofNat (((ha * 16 + hb) * 16 + hc) * 16 + hd) :: p.1, p.2))
            | _, _, _, _ => none
          | _ => none
        else
          match escChar e with
          | some ec => (parseStrBody f rest2).map (fun p => (ec :: p.1, p.2))
          | none => none
    else if c.toNat < 32 then none
    else (parseStrBody f rest).map (fun p => (c :: p.1, p.2))

/-- Parse the fractional and exponent parts of a JSON number lexeme. -/
def parseFracExp (s : List Char) : Option (List Char × List Char) :=
  let (frac, s1) :=
    match s with
    | '.' :: t =>
      let p := t.span Char.isDigit
      if p.1 = [] then ([], '.' :: t) else ('.' :: p.1, p.2)
    | _ => ([], s)
  match s, frac, s1 with
  | '.' :: _, [], _ => none
  | _, _, _ =>
    match s1 with
    | c :: t =>
      if c = 'e' ∨ c = 'E' then
        let (sgn, t2) :=
          match t with
          | '+' :: u => (['+'], u)
          | '-' :: u => (['-'], u)
          | _ => ([], t)
        let p := t2.span Char.isDigit
        if p.1 = [] then none
        else some (frac ++ c :: sgn ++ p.1, p.2)
      else some (frac, s1)
    | [] => some (frac, [])

/-- Parse a JSON number lexeme (strict grammar: no leading zeros), returning
the lexeme and the remaining input. -/
def parseNum (s : List Char) : Option (List Char × List Char) :=
  let (neg, s1) :=
    match s with
    | '-' :: t => (['-'], t)
    | _ => ([], s)
  match s1 with
  | [] => none
  | c :: t =>
    if c = '0' then
      (parseFracExp t).map (fun p => (neg ++ '0' :: p.1, p.2))
    else if c.isDigit then
      let q := t.span Char.isDigit
      (parseFracExp q.2).map (fun p => (neg ++ c :: q.1 ++ p.1, p.2))
    else none

/-- Try to consume a literal character sequence. -/
def expectLit (lit s : List Char) : Option (List Char) :=
  if lit.isPrefixOf s then some (s.drop lit.length) else none

mutual

/-- Parse one JSON value and return it with the remaining input.  `fuel`
strictly decreases on every recursive call; callers supply enough for any
input of the given length. -/
def parseVal (fuel : Nat) (s : List Char) : Option (Json × List Char) :=
  match fuel with
  | 0 => none
  | f + 1 =>
    match skipWs s with
    | [] => none
    | c :: rest =>
      if c = '"' then
        (parseStrBody f rest).map (fun p => (Json.str p.1, p.2))
      else if c = '{' then
        match skipWs rest with
        | '}' :: r2 => some (Json.obj [], r2)
        | _ => (parseMembers f rest).map (fun p => (Json.obj p.1, p.2))
      else if c = '[' then
        match skipWs rest with
        | ']' :: r2 => some (Json.arr [], r2)
        | _ => (parseElems f rest).map (fun p => (Json.arr p.1, p.2))
      else if c = 't' then
        (expectLit ['r', 'u', 'e'] rest).map (fun r => (Json.bool true, r))
      else if c = 'f' then
        (expectLit ['a', 'l', 's', 'e'] rest).map (fun r => (Json.bool false, r))
      else if c = 'n' then
        (expectLit ['u', 'l', 'l'] rest).map (fun r => (Json.null, r))
      else if c = '-' ∨ c.isDigit then
        (parseNum (c :: rest)).map (fun p => (Json.num p.1, p.2))
      else none

/-- Parse the members of a JSON object after its `\x7b`, when the object is
not empty; consumes the closing brace. -/
def parseMembers (fuel : Nat) (s : List Char) : Option (List (List Char × Json) × List Char) :=
  match fuel with
  | 0 => none
  | f + 1 =>
    match skipWs s with
    | '"' :: rest =>
      match parseStrBody f rest with
      | some (k, r1) =>
        match skipWs r1 with
        | ':' :: r2 =>
          match parseVal f r2 with
          | some (v, r3) =>
            match skipWs r3 with
            | ',' :: r4 => (parseMembers f r4).map (fun p => ((k, v) :: p.1, p.2))
            | '}' :: r4 => some ([(k, v)], r4)
            | _ => none
          | none => none
        | _ => none
      | none => none
    | _ => none

/-- Parse the elements of a JSON array after its `[`, when the array is not
empty; consumes the closing bracket. -/
def parseElems (fuel : Nat) (s : List Char) : Option (List Json × List Char) :=
  match fuel with
  | 0 => none
  | f + 1 =>
    match parseVal f s with
    | some (v, r1) =>
      match skipWs r1 with
      | ',' :: r2 => (parseElems f r2).map (fun p => (v :: p.1, p.2))
      | ']' :: r2 => some ([v], r2)
      | _ => none
    | none => none

end

/-- Model of Python's `json.loads`: parse one JSON value and require that
nothing but whitespace follows; `none` models `json.JSONDecodeError`. -/
def jsonLoads (s : List Char) : Option Json :=
  match parseVal (2 * s.length + 2) s with
  | some (v, rest) => if skipWs rest = [] then some v else none
  | none => none

/-- Index of the first occurrence of `pat` as a contiguous sublist of `s`
(leftmost match, as in Python's `str.find` / the scan of `str.split`). -/
def findSub (pat : List Char) : List Char → Option Nat
  | [] => if pat.isPrefixOf ([] : List Char) then some 0 else none
  | c :: t =>
    if pat.isPrefixOf (c :: t) then some 0
    else (findSub pat t).map (· + 1)

/-- Whether `pat` occurs as a contiguous sublist of `s`: Python's
`pat in s` on strings. -/
def containsSub (pat s : List Char) : Bool :=
  (findSub pat s).isSome

/-- Everything after the first occurrence of `pat` in `s` (the whole of `s`
when there is none; the callers below only use it when `pat` occurs). -/
def afterFirst (pat s : List Char) : List Char :=
  match findSub pat s with
  | some i => s.drop (i + pat.length)
  | none => s

/-- Everything before the first occurrence of `pat` in `s`, or all of `s`
when `pat` does not occur: Python's `s.split(pat)[0]`. -/
def beforeFirst (pat s : List Char) : List Char :=
  match findSub pat s with
  | some i => s.take i
  | none => s

/-- Python's `s.split(pat)[1]` for non-empty `pat` occurring in `s`: the
segment strictly between the first occurrence of `pat` and the next
(non-overlapping) occurrence, or everything after the first occurrence when
there is no second one. -/
def splitSeg1 (pat s : List Char) : List Char :=
  let a := afterFirst pat s
  match findSub pat a with
  | some q => a.take q
  | none => a

/-- Index of the first occurrence of the character `c`, if any. -/
def firstIdx (c : Char) : List Char → Option Nat
  | [] => none
  | a :: t => if a = c then some 0 else (firstIdx c t).map (· + 1)

/-- Python's `s.find(c)` for a single-character needle: index of the first
occurrence, or `-1`. -/
def pyFindChar (c : Char) (s : List Char) : Int :=
  match firstIdx c s with
  | some i => (i : Int)
  | none => -1

/-- Helper for `pyRFindChar`: index of the last occurrence of `c`. -/
def lastIdx (c : Char) : List Char → Option Nat
  | [] => none
  | a :: t =>
    match lastIdx c t with
    | some i => some (i + 1)
    | none => if a = c then some 0 else none

/-- Python's `s.rfind(c)` for a single-character needle: index of the last
occurrence, or `-1`. -/
def pyRFindChar (c : Char) (s : List Char) : Int :=
  match lastIdx c s with
  | some i => (i : Int)
  | none => -1

/-- Normalisation of one slice bound, as in Python `s[a:b]`: negative
indices count from the end, then both bounds are clamped to `[0, len]`. -/
def pyBound (len : Nat) (x : Int) : Nat :=
  if x < 0 then (x + len).toNat else min x.toNat len

/-- Python's string slice `s[a:b]` (step 1). -/
def pySlice (s : List Char) (a b : Int) : List Char :=
  (s.take (pyBound s.length b)).drop (pyBound s.length a)

/-- The characters of the marker ` ```json `. -/
def jfence : List Char := "```json".data

/-- The characters of the marker ` ``` `. -/
def bt3 : List Char := "```".data

/-- Lines 97-100 of the source: the JSON-extraction slicing of
`generate_posts`.  When the reply contains ` ```json `, Python runs
`text.split("```json")[1].split("```")[0]`, modelled by `splitSeg1`
followed by `beforeFirst`; otherwise it runs
`text[text.find("{"):text.rfind("}")+1]`, modelled by `pySlice` with the
`-1`-on-absence convention of `find`/`rfind`. -/
def extract_json (text : List Char) : List Char :=
  if containsSub jfence text then
    beforeFirst bt3 (splitSeg1 jfence text)
  else
    pySlice text (pyFindChar '{' text) (pyRFindChar '}' text + 1)

/-- The message of Python's `json.JSONDecodeError`, as an error tag. -/
def errDecode : List Char := "json.decoder.JSONDecodeError".data

/-- Lines 86-102 of the source: `generate_posts`, with the generative-text
service's reply passed in as a parameter (the prompt construction and the
API call are external effects; the reply is `msg.content[0].text`).  The
function extracts a JSON substring from the reply and returns its parse;
`Except.error` models the uncaught `json.loads` exception. -/
def generate_posts (reply : List Char) : Except (List Char) Json :=
  match jsonLoads (extract_json reply) with
  | some v => Except.ok v
  | none => Except.error errDecode

/-- One raw search result, with the three fields of the documented response
schema (`title`, `content`, `url`). -/
structure RawItem where
  title : List Char
  content : List Char
  url : List Char
deriving DecidableEq, Repr

/-- A candidate news item as built by `fetch_news` (lines 76-80). -/
structure NewsItem where
  title : List Char
  summary : List Char
  url : List Char
deriving DecidableEq, Repr

/-- The outcome of one query's `requests.post` + `raise_for_status` +
body decoding: either the `results` array, or the exception message caught
by the `except` clause (network error, non-2xx status). -/
def QueryOutcome : Type := Except (List Char) (List RawItem)

/-- Lines 76-80: the `NewsItem` built from a raw result, with the summary
truncated to 300 characters (`item.get("content", "")[:300]`). -/
def mkNews (it : RawItem) : NewsItem :=
  { title := it.title, summary := it.content.take 300, url := it.url }

/-- Lines 73-80: the inner loop over one response's `results`, threading the
`seen` set (modelled as a list of urls) and the accumulator `all_news`. -/
def addItems : List RawItem → List (List Char) → List NewsItem →
    List (List Char) × List NewsItem
  | [], seen, acc => (seen, acc)
  | it :: rest, seen, acc =>
    if it.url ∈ seen then addItems rest seen acc
    else addItems rest (it.url :: seen) (acc ++ [mkNews it])

/-- Prefix of the console message printed by the `except` clause of
`fetch_news` (line 82). -/
def searchErrPre : List Char := "Search error: ".data

/-- Lines 63-82: the loop of `fetch_news` over the queries.  A failing query
appends its message to the log and leaves `seen`/`all_news` untouched; a
successful one feeds its items through `addItems`. -/
def fetchGo : List QueryOutcome → List (List Char) → List NewsItem →
    List (List Char) → List NewsItem × List (List Char)
  | [], _, acc, log => (acc, log)
  | Except.error e :: rest, seen, acc, log =>
      fetchGo rest seen acc (log ++ [searchErrPre ++ e])
  | Except.ok items :: rest, seen, acc, log =>
      let p := addItems items seen acc
      fetchGo rest p.1 p.2 log

/-- The `ValueError` message of line 58. -/
def errApiKey : List Char := "TAVILY_API_KEY not set".data

/-- Lines 55-84: `fetch_news`.  The environment lookup of `TAVILY_API_KEY`
is the `apiKey` parameter; the per-query network outcomes are the
`responses` parameter (one entry per query, in query order).  The gate of
lines 56-58 is `if not api_key:` — Python truthiness — so the `ValueError`
is raised both when the variable is absent (`None`) and when it is set to
the empty string.  Otherwise returns the accumulated list truncated to 10
items together with the console log of per-query failures. -/
def fetch_news (apiKey : Option (List Char)) (responses : List QueryOutcome) :
    Except (List Char) (List NewsItem × List (List Char)) :=
  match apiKey with
  | none => Except.error errApiKey
  | some [] => Except.error errApiKey
  | some (_ :: _) =>
    Except.ok ((fetchGo responses [] [] []).1.take 10, (fetchGo responses [] [] []).2)

/-- The item list returned by `fetch_news` (empty in the fatal-error case,
which only occurs when the key is absent). -/
def fetchItems (apiKey : Option (List Char)) (responses : List QueryOutcome) :
    List NewsItem :=
  match fetch_news apiKey responses with
  | Except.ok p => p.1
  | Except.error _ => []

/-- The raw items of the successful responses, concatenated in query order
and response order: the discovery order of `fetch_news`. -/
def rawsOf (responses : List QueryOutcome) : List RawItem :=
  (responses.filterMap Except.toOption).flatten

/-- First-occurrence deduplication by url, relative to an already-`seen` set:
the reference function the fetch loop is proved equal to. -/
def firstDedupS (seen : List (List Char)) : List RawItem → List RawItem
  | [] => []
  | it :: rest =>
    if it.url ∈ seen then firstDedupS seen rest
    else it :: firstDedupS (it.url :: seen) rest

/-- The `seen` set after processing a list of raw items. -/
def seenAfter (seen : List (List Char)) : List RawItem → List (List Char)
  | [] => seen
  | it :: rest =>
    if it.url ∈ seen then seenAfter seen rest
    else seenAfter (it.url :: seen) rest

/-- Index of the first occurrence of `u` in a list of urls (length of the
list when absent; only used at members). -/
def idxOf (u : List Char) : List (List Char) → Nat
  | [] => 0
  | v :: t => if v = u then 0 else idxOf u t + 1

/-- One post draft, per the expected reply shape
(`posts[].text/format_type/hook`). -/
structure PostDraft where
  text : List Char
  format_type : List Char
  hook : List Char
deriving DecidableEq, Repr

/-- The generation result consumed by `send_to_spreadsheet`: the four keys
it reads, with `posts` an ordered list of drafts.  On a value of this shape
Python's `result.get(key, default)` / `posts[i].get("text", "")` always find
the key, so the dictionary reads become plain field accesses. -/
structure GenerationResult where
  selected_news : List Char
  selected_news_url : List Char
  reason : List Char
  posts : List PostDraft
deriving DecidableEq, Repr

/-- A wall-clock instant, as read by `datetime.now()`. -/
structure Timestamp where
  year : Nat
  month : Nat
  day : Nat
  hour : Nat
  minute : Nat
  second : Nat
deriving DecidableEq, Repr

/-- Decimal digit `k` places above the units of `n`, as a character. -/
def d10 (n k : Nat) : Char := Char.ofNat (48 + n / 10 ^ k % 10)

/-- Zero-padded two-digit decimal rendering (faithful to `strftime` for
values below 100, which covers every calendar field). -/
def pad2c (n : Nat) : List Char := [d10 n 1, d10 n 0]

/-- Zero-padded four-digit decimal rendering (faithful to `strftime`'s `%Y`
for years below 10000). -/
def pad4c (n : Nat) : List Char := [d10 n 3, d10 n 2, d10 n 1, d10 n 0]

/-- Line 109: `datetime.now().strftime('%Y-%m-%d %H:%M:%S')`. -/
def formatTimestamp (t : Timestamp) : List Char :=
  pad4c t.year ++ '-' :: pad2c t.month ++ '-' :: pad2c t.day ++
    ' ' :: pad2c t.hour ++ ':' :: pad2c t.minute ++ ':' :: pad2c t.second

/-- The key strings of the `data` dict literal of lines 108-116. -/
def kTimestamp : List Char := "timestamp".data

/-- Key `selected_news`. -/
def kSelectedNews : List Char := "selected_news".data

/-- Key `selected_news_url`. -/
def kSelectedNewsUrl : List Char := "selected_news_url".data

/-- Key `reason`. -/
def kReason : List Char := "reason".data

/-- Key `post1`. -/
def kPost1 : List Char := "post1".data

/-- Key `post2`. -/
def kPost2 : List Char := "post2".data

/-- Key `post3`. -/
def kPost3 : List Char := "post3".data

/-- Lines 113-115: `posts[i].get("text", "") if len(posts) > i else ""`. -/
def postTextAt (posts : List PostDraft) (i : Nat) : List Char :=
  match posts[i]? with
  | some p => p.text
  | none => []

/-- Lines 106-116: the `data` dict built by `send_to_spreadsheet`, as an
association list in the literal's key order, with the current time passed
in as a parameter. -/
def send_to_spreadsheet_data (now : Timestamp) (result : GenerationResult) :
    List (List Char × List Char) :=
  [ (kTimestamp, formatTimestamp now),
    (kSelectedNews, result.selected_news),
    (kSelectedNewsUrl, result.selected_news_url),
    (kReason, result.reason),
    (kPost1, postTextAt result.posts 0),
    (kPost2, postTextAt result.posts 1),
    (kPost3, postTextAt result.posts 2) ]

/-- Console message of line 120. -/
def pubOkMsg : List Char := "sent to spreadsheet".data

/-- Prefix of the console message of line 121. -/
def pubRespPre : List Char := "response: ".data

/-- Prefix of the console message of line 123. -/
def pubErrPre : List Char := "spreadsheet send error: ".data

/-- Lines 118-123: the `try`/`except` around the webhook POST.  The outcome
of `requests.post` is the `postOutcome` parameter (response text, or the
exception message).  Both branches end in a plain `return`; an
`Except.error` result would model an exception escaping the function, and
no branch produces one. -/
def send_to_spreadsheet_run (now : Timestamp) (result : GenerationResult)
    (postOutcome : Except (List Char) (List Char)) :
    Except (List Char) (List (List Char)) :=
  let _data := send_to_spreadsheet_data now result
  match postOutcome with
  | Except.ok body => Except.ok [pubOkMsg, pubRespPre ++ body]
  | Except.error e => Except.ok [pubErrPre ++ e]

/-- The console log of the publish step as `main` observes it (derived from
`send_to_spreadsheet_run`, which never returns an error). -/
def publishLogOf (postOutcome : Except (List Char) (List Char)) :
    List (List Char) :=
  match postOutcome with
  | Except.ok body => [pubOkMsg, pubRespPre ++ body]
  | Except.error e => [pubErrPre ++ e]

/-- What one run of `main` did: which phases were entered, the publish log,
and whether the process finished normally (`Except.ok`) or died on an
uncaught exception (`Except.error`). -/
structure RunTrace where
  generateCalled : Bool
  publishCalled : Bool
  pubLog : List (List Char)
  outcome : Except (List Char) Unit
deriving Repr

/-- Lines 125-160: `main`.  `fetch_news` is called first and its
`ValueError` (missing key) propagates; an empty candidate list returns
early (lines 135-137) before `generate_posts`; a `json.loads` failure in
`generate_posts` propagates with no handler (line 143); otherwise
`send_to_spreadsheet` runs and, catching every exception itself, leaves the
run's outcome normal.  Console printing is otherwise out of scope. -/
def mainRun (apiKey : Option (List Char)) (responses : List QueryOutcome)
    (reply : List Char) (postOutcome : Except (List Char) (List Char)) : RunTrace :=
  match fetch_news apiKey responses with
  | Except.error e => ⟨false, false, [], Except.error e⟩
  | Except.ok p =>
    if p.1 = [] then ⟨false, false, [], Except.ok ()⟩
    else
      match generate_posts reply with
      | Except.error e => ⟨true, false, [], Except.error e⟩
      | Except.ok _ => ⟨true, true, publishLogOf postOutcome, Except.ok ()⟩

/-- The failure log entries of a list of query outcomes, in query order. -/
def errLogsOf (responses : List QueryOutcome) : List (List Char) :=
  responses.filterMap fun o =>
    match o with
    | Except.error e => some (searchErrPre ++ e)
    | Except.ok _ => none

theorem postTextAt_eq (posts : List PostDraft) (i : Nat) :
    postTextAt posts i = ((posts[i]?).map PostDraft.text).getD [] := by
  unfold postTextAt
  cases posts[i]? <;> rfl

/-- C9 counterexample: a `TAVILY_API_KEY` that is present but set to the
empty string is falsy for the `if not api_key:` gate, so `fetch_news`
aborts with the `ValueError` even though the key is present — refuting
"when the key is present, fetch_news never aborts the run fatally". -/
theorem fetch_key_gate_counterexample :
    fetch_news (some []) [] = Except.error errApiKey ∧
    (fetch_news (some []) []).isOk = false := by
  exact ⟨rfl, rfl⟩

/-- C9 (amended): with `TAVILY_API_KEY` absent from the environment — or
present but empty, which Python's `if not api_key:` treats identically —
`fetch_news` aborts with the `ValueError` before any search request is
consulted; with a non-empty key present it never aborts the run fatally,
whatever the per-query outcomes are (every per-query exception is caught). -/
theorem fetch_key_gate_amended (responses : List QueryOutcome) (k : List Char) :
    fetch_news none responses = Except.error errApiKey ∧
    fetch_news (some []) responses = Except.error errApiKey ∧
    (k ≠ [] → (fetch_news (some k) responses).isOk = true) := by
  refine ⟨rfl, rfl, ?_⟩
  intro hk
  obtain ⟨c, ks, rfl⟩ := List.exists_cons_of_ne_nil hk
  rfl

theorem fetch_key_gate_amended_witness :
    (['k'] : List Char) ≠ [] ∧
    (fetch_news (some ['k']) [Except.error "down".data]).isOk = true :=
  ⟨by decide,
    (fetch_key_gate_amended [Except.error "down".data] ['k']).2.2 (by decide)⟩

/-- C5: the record built by `send_to_spreadsheet` has exactly the seven keys
`timestamp`, `selected_news`, `selected_news_url`, `reason`, `post1`,
`post2`, `post3` in that order; the timestamp is the wall-clock time in the
19-character `YYYY-MM-DD HH:MM:SS` shape; the three scalar fields are copied
verbatim; and each `postN` is `posts[N-1].text` when that index exists and
the empty string otherwise. -/
theorem spreadsheet_record_shape (now : Timestamp) (r : GenerationResult) :
    (send_to_spreadsheet_data now r).map Prod.fst =
      [kTimestamp, kSelectedNews, kSelectedNewsUrl, kReason, kPost1, kPost2, kPost3] ∧
    (send_to_spreadsheet_data now r).lookup kTimestamp = some (formatTimestamp now) ∧
    (formatTimestamp now).length = 19 ∧
    (formatTimestamp now)[4]? = some '-' ∧
    (formatTimestamp now)[7]? = some '-' ∧
    (formatTimestamp now)[10]? = some ' ' ∧
    (formatTimestamp now)[13]? = some ':' ∧
    (formatTimestamp now)[16]? = some ':' ∧
    (send_to_spreadsheet_data now r).lookup kSelectedNews = some r.selected_news ∧
    (send_to_spreadsheet_data now r).lookup kSelectedNewsUrl = some r.selected_news_url ∧
    (send_to_spreadsheet_data now r).lookup kReason = some r.reason ∧
    (send_to_spreadsheet_data now r).lookup kPost1 =
      some (((r.posts[0]?).map PostDraft.text).getD []) ∧
    (send_to_spreadsheet_data now r).lookup kPost2 =
      some (((r.posts[1]?).map PostDraft.text).getD []) ∧
    (send_to_spreadsheet_data now r).lookup kPost3 =
      some (((r.posts[2]?).map PostDraft.text).getD []) := by
  refine ⟨rfl, rfl, rfl, rfl, rfl, rfl, rfl, rfl, ?_, ?_, ?_, ?_, ?_, ?_⟩ <;>
    simp [send_to_spreadsheet_data, List.lookup, postTextAt_eq, kTimestamp,
      kSelectedNews, kSelectedNewsUrl, kReason, kPost1, kPost2, kPost3]

/-- C6: `send_to_spreadsheet` returns normally for every outcome of the
webhook POST; a failure is logged (with its message) instead of raised; and
the overall outcome of `main` — and whether generation ran — is the same
whatever the publish outcome is. -/
theorem publish_never_raises (now : Timestamp) (r : GenerationResult)
    (po po2 : Except (List Char) (List Char)) (e : List Char)
    (apiKey : Option (List Char)) (responses : List QueryOutcome)
    (reply : List Char) :
    (send_to_spreadsheet_run now r po).isOk = true ∧
    send_to_spreadsheet_run now r (Except.error e) = Except.ok [pubErrPre ++ e] ∧
    (mainRun apiKey responses reply po).outcome =
      (mainRun apiKey responses reply po2).outcome ∧
    (mainRun apiKey responses reply po).generateCalled =
      (mainRun apiKey responses reply po2).generateCalled := by
  refine ⟨?_, rfl, ?_, ?_⟩
  · cases po <;> rfl
  all_goals
    unfold mainRun
    cases fetch_news apiKey responses with
    | error e2 => rfl
    | ok p =>
      by_cases hp : p.1 = []
      · simp only [if_pos hp]
      · simp only [if_neg hp]
        cases generate_posts reply <;> rfl

/-- Helper: a character absent from a list has no first index. -/
theorem firstIdx_eq_none (c : Char) (s : List Char) (h : c ∉ s) :
    firstIdx c s = none := by
  induction s with
  | nil => rfl
  | cons a t ih =>
    simp only [List.mem_cons, not_or] at h
    unfold firstIdx
    rw [if_neg (fun hac => h.1 hac.symm), ih h.2]
    rfl

/-- Helper: a character absent from a list has no last index. -/
theorem lastIdx_eq_none (c : Char) (s : List Char) (h : c ∉ s) :
    lastIdx c s = none := by
  induction s with
  | nil => rfl
  | cons a t ih =>
    simp only [List.mem_cons, not_or] at h
    unfold lastIdx
    rw [ih h.2]
    show (if a = c then some 0 else none) = none
    exact if_neg (fun h' => h.1 h'.symm)

/-- C10: the extraction slicing of `generate_posts` is total — on a reply
with no ` ```json ` fence and no brace at all, `find` and `rfind` both
return `-1`, the fallback slice evaluates (without any indexing error) to
the empty string, and the subsequent parse fails with a decode error rather
than yielding a result. -/
theorem extract_total_on_braceless (text : List Char)
    (h1 : containsSub jfence text = false)
    (h2 : '{' ∉ text) (h3 : '}' ∉ text) :
    pyFindChar '{' text = -1 ∧
    pyRFindChar '}' text = -1 ∧
    extract_json text = [] ∧
    generate_posts text = Except.error errDecode := by
  have hf : pyFindChar '{' text = -1 := by
    unfold pyFindChar
    rw [firstIdx_eq_none _ _ h2]
  have hr : pyRFindChar '}' text = -1 := by
    unfold pyRFindChar
    rw [lastIdx_eq_none _ _ h3]
  have hx : extract_json text = [] := by
    unfold extract_json
    rw [h1]
    simp only [Bool.false_eq_true, if_false]
    rw [hf, hr]
    show pySlice text (-1) ((-1) + 1) = []
    unfold pySlice pyBound
    norm_num
  refine ⟨hf, hr, hx, ?_⟩
  unfold generate_posts
  rw [hx]
  rfl

/-- Concrete reply for the C10 witness. -/
def c10text : List Char := "no json here at all".data

theorem extract_total_on_braceless_witness :
    (containsSub jfence c10text = false ∧ '{' ∉ c10text ∧ '}' ∉ c10text) ∧
    (pyFindChar '{' c10text = -1 ∧ pyRFindChar '}' c10text = -1 ∧
      extract_json c10text = [] ∧ generate_posts c10text = Except.error errDecode) := by
  refine ⟨⟨by decide, by decide, by decide⟩, ?_⟩
  have h := extract_total_on_braceless c10text (by decide) (by decide) (by decide)
  refine ⟨h.1, h.2.1, h.2.2.1, ?_⟩
  unfold generate_posts
  rw [h.2.2.1]
  rfl

theorem addItems_spec (l : List RawItem) (seen : List (List Char))
    (acc : List NewsItem) :
    addItems l seen acc = (seenAfter seen l, acc ++ (firstDedupS seen l).map mkNews) := by
  induction l generalizing seen acc with
  | nil => simp [addItems, seenAfter, firstDedupS]
  | cons it rest ih =>
    by_cases h : it.url ∈ seen
    · simp only [addItems, seenAfter, firstDedupS, if_pos h]
      exact ih seen acc
    · simp only [addItems, seenAfter, firstDedupS, if_neg h]
      rw [ih (it.url :: seen) (acc ++ [mkNews it])]
      simp

theorem firstDedupS_append (xs ys : List RawItem) (seen : List (List Char)) :
    firstDedupS seen (xs ++ ys) =
      firstDedupS seen xs ++ firstDedupS (seenAfter seen xs) ys := by
  induction xs generalizing seen with
  | nil => simp [firstDedupS, seenAfter]
  | cons it rest ih =>
    by_cases h : it.url ∈ seen
    · show firstDedupS seen (it :: (rest ++ ys)) = _
      simp only [firstDedupS, seenAfter, if_pos h]
      exact ih seen
    · show firstDedupS seen (it :: (rest ++ ys)) = _
      simp only [firstDedupS, seenAfter, if_neg h]
      rw [ih (it.url :: seen)]
      simp

theorem fetchGo_spec (responses : List QueryOutcome) (seen : List (List Char))
    (acc : List NewsItem) (log : List (List Char)) :
    fetchGo responses seen acc log =
      (acc ++ (firstDedupS seen (rawsOf responses)).map mkNews,
       log ++ errLogsOf responses) := by
  induction responses generalizing seen acc log with
  | nil => simp [fetchGo, rawsOf, errLogsOf, firstDedupS]
  | cons o rest ih =>
    cases o with
    | error e =>
      show fetchGo rest seen acc (log ++ [searchErrPre ++ e]) = _
      rw [ih seen acc (log ++ [searchErrPre ++ e])]
      have hraw : rawsOf (Except.error e :: rest) = rawsOf rest := by
        simp [rawsOf, List.filterMap_cons, Except.toOption]
      have herr : errLogsOf (Except.error e :: rest) =
          (searchErrPre ++ e) :: errLogsOf rest := by
        simp [errLogsOf, List.filterMap_cons]
      rw [hraw, herr]
      simp
    | ok items =>
      show fetchGo rest (addItems items seen acc).1 (addItems items seen acc).2 log = _
      rw [addItems_spec]
      rw [ih (seenAfter seen items) (acc ++ (firstDedupS seen items).map mkNews) log]
      have hraw : rawsOf (Except.ok items :: rest) = items ++ rawsOf rest := by
        simp [rawsOf, List.filterMap_cons, Except.toOption]
      have herr : errLogsOf (Except.ok items :: rest) = errLogsOf rest := by
        simp [errLogsOf, List.filterMap_cons]
      rw [hraw, herr, firstDedupS_append]
      simp

/-- Shared helper: the items returned by `fetch_news` are the first 10 of
the first-occurrence URL-deduplication of the concatenated successful
responses. -/
theorem fetchItems_eq (k : List Char) (responses : List QueryOutcome)
    (hk : k ≠ []) :
    fetchItems (some k) responses =
      ((firstDedupS [] (rawsOf responses)).map mkNews).take 10 := by
  obtain ⟨c, ks, rfl⟩ := List.exists_cons_of_ne_nil hk
  unfold fetchItems fetch_news
  rw [fetchGo_spec]
  simp

/-- Shared helper: with a non-empty key present, `fetch_news` always
succeeds, returning `fetchItems` and one log entry per failed query. -/
theorem fetch_news_ok (k : List Char) (responses : List QueryOutcome)
    (hk : k ≠ []) :
    fetch_news (some k) responses =
      Except.ok (fetchItems (some k) responses, errLogsOf responses) := by
  rw [fetchItems_eq k responses hk]
  obtain ⟨c, ks, rfl⟩ := List.exists_cons_of_ne_nil hk
  unfold fetch_news
  rw [fetchGo_spec]
  simp

/-- The successful responses of a run, re-wrapped as a run with no failing
query. -/
def successesOf (responses : List QueryOutcome) : List QueryOutcome :=
  (responses.filterMap Except.toOption).map Except.ok

/-- C7: when some queries fail and others succeed, `fetch_news` (its
non-empty key present) still succeeds, its log records each failure (in
query order), and its item list is exactly what a run consisting of only
the non-failing queries would produce. -/
theorem fetch_failures_skipped (k : List Char) (responses : List QueryOutcome)
    (hk : k ≠ []) :
    fetch_news (some k) responses =
      Except.ok (fetchItems (some k) responses, errLogsOf responses) ∧
    fetch_news (some k) (successesOf responses) =
      Except.ok (fetchItems (some k) responses, []) ∧
    fetchItems (some k) (successesOf responses) = fetchItems (some k) responses := by
  have hraw : rawsOf (successesOf responses) = rawsOf responses := by
    unfold rawsOf successesOf
    rw [List.filterMap_map]
    have h1 : (Except.toOption ∘ (Except.ok : List RawItem → QueryOutcome)) = some := by
      funext xs
      rfl
    rw [h1, List.filterMap_some]
  have herr : errLogsOf (successesOf responses) = [] := by
    unfold errLogsOf successesOf
    rw [List.filterMap_map]
    apply List.filterMap_eq_nil_iff.mpr
    intro a _
    rfl
  have hitems : fetchItems (some k) (successesOf responses) =
      fetchItems (some k) responses := by
    rw [fetchItems_eq k (successesOf responses) hk, fetchItems_eq k responses hk, hraw]
  refine ⟨fetch_news_ok k responses hk, ?_, hitems⟩
  rw [fetch_news_ok k (successesOf responses) hk, hitems, herr]

/-- One duplicate-free successful query, one failing query, one successful
query repeating an earlier URL: fixture for the C7 witness. -/
def c7rs : List QueryOutcome :=
  [Except.ok [{ title := "t1".data, content := "c1".data, url := "u1".data },
              { title := "t2".data, content := "c2".data, url := "u2".data }],
   Except.error "net down".data,
   Except.ok [{ title := "t3".data, content := "c3".data, url := "u1".data },
              { title := "t4".data, content := "c4".data, url := "u3".data }]]

theorem fetch_failures_skipped_witness :
    (['k'] : List Char) ≠ [] ∧
    (fetch_news (some ['k']) c7rs =
        Except.ok (fetchItems (some ['k']) c7rs, errLogsOf c7rs) ∧
      fetch_news (some ['k']) (successesOf c7rs) =
        Except.ok (fetchItems (some ['k']) c7rs, []) ∧
      fetchItems (some ['k']) (successesOf c7rs) = fetchItems (some ['k']) c7rs) :=
  ⟨by decide, fetch_failures_skipped ['k'] c7rs (by decide)⟩

theorem idxOf_cons_self (u : List Char) (t : List (List Char)) :
    idxOf u (u :: t) = 0 := by
  show (if u = u then 0 else idxOf u t + 1) = 0
  exact if_pos rfl

theorem idxOf_cons_ne (u v : List Char) (t : List (List Char)) (h : v ≠ u) :
    idxOf u (v :: t) = idxOf u t + 1 := by
  show (if v = u then 0 else idxOf u t + 1) = idxOf u t + 1
  exact if_neg h

theorem mem_firstDedupS (seen : List (List Char)) (l : List RawItem)
    (x : RawItem) (hx : x ∈ firstDedupS seen l) : x.url ∉ seen ∧ x ∈ l := by
  induction l generalizing seen with
  | nil => simp [firstDedupS] at hx
  | cons it rest ih =>
    by_cases h : it.url ∈ seen
    · rw [firstDedupS, if_pos h] at hx
      have := ih seen hx
      exact ⟨this.1, List.mem_cons_of_mem _ this.2⟩
    · rw [firstDedupS, if_neg h] at hx
      rcases List.mem_cons.mp hx with h1 | h1
      · subst h1
        exact ⟨h, List.mem_cons_self _ _⟩
      · have := ih (it.url :: seen) h1
        refine ⟨fun hc => this.1 (List.mem_cons_of_mem _ hc), List.mem_cons_of_mem _ this.2⟩

theorem nodup_firstDedupS_urls (seen : List (List Char)) (l : List RawItem) :
    ((firstDedupS seen l).map RawItem.url).Nodup := by
  induction l generalizing seen with
  | nil => simp [firstDedupS]
  | cons it rest ih =>
    by_cases h : it.url ∈ seen
    · rw [firstDedupS, if_pos h]
      exact ih seen
    · rw [firstDedupS, if_neg h]
      rw [List.map_cons, List.nodup_cons]
      refine ⟨?_, ih (it.url :: seen)⟩
      intro hc
      rcases List.mem_map.mp hc with ⟨y, hy, hyu⟩
      exact (mem_firstDedupS _ _ _ hy).1 (hyu ▸ List.mem_cons_self _ _)

theorem pairwise_firstDedupS (l : List RawItem) (seen : List (List Char)) :
    (firstDedupS seen l).Pairwise
      (fun x y => idxOf x.url (l.map RawItem.url) < idxOf y.url (l.map RawItem.url)) := by
  induction l generalizing seen with
  | nil => simp [firstDedupS]
  | cons it rest ih =>
    rw [List.map_cons]
    by_cases h : it.url ∈ seen
    · rw [firstDedupS, if_pos h]
      refine (ih seen).imp_of_mem ?_
      intro a b ha hb hab
      have hau : a.url ≠ it.url :=
        fun hc => (mem_firstDedupS _ _ _ ha).1 (hc ▸ h)
      have hbu : b.url ≠ it.url :=
        fun hc => (mem_firstDedupS _ _ _ hb).1 (hc ▸ h)
      rw [idxOf_cons_ne _ _ _ (fun hc => hau hc.symm),
        idxOf_cons_ne _ _ _ (fun hc => hbu hc.symm)]
      omega
    · rw [firstDedupS, if_neg h]
      refine List.Pairwise.cons ?_ ?_
      · intro b hb
        have hbu : b.url ≠ it.url := fun hc =>
          (mem_firstDedupS _ _ _ hb).1 (hc ▸ List.mem_cons_self _ _)
        rw [idxOf_cons_self, idxOf_cons_ne _ _ _ (fun hc => hbu hc.symm)]
        omega
      · refine (ih (it.url :: seen)).imp_of_mem ?_
        intro a b ha hb hab
        have hau : a.url ≠ it.url := fun hc =>
          (mem_firstDedupS _ _ _ ha).1 (hc ▸ List.mem_cons_self _ _)
        have hbu : b.url ≠ it.url := fun hc =>
          (mem_firstDedupS _ _ _ hb).1 (hc ▸ List.mem_cons_self _ _)
        rw [idxOf_cons_ne _ _ _ (fun hc => hau hc.symm),
          idxOf_cons_ne _ _ _ (fun hc => hbu hc.symm)]
        omega

/-- C1: over every sequence of per-query responses (duplicate URLs across
queries allowed), the list returned by `fetch_news` is the first 10 items of
the first-occurrence URL-deduplication of the concatenated successful
responses; its URLs are pairwise distinct; it has at most 10 items; and one
item precedes another exactly when its URL was first seen earlier in
discovery order (queries in the given order, results in response order). -/
theorem fetch_dedup_invariant (k : List Char) (responses : List QueryOutcome)
    (hk : k ≠ []) :
    fetchItems (some k) responses =
      ((firstDedupS [] (rawsOf responses)).map mkNews).take 10 ∧
    ((fetchItems (some k) responses).map NewsItem.url).Nodup ∧
    (fetchItems (some k) responses).length ≤ 10 ∧
    ∀ i j : Fin (fetchItems (some k) responses).length,
      i < j ↔
        idxOf ((fetchItems (some k) responses).get i).url
            ((rawsOf responses).map RawItem.url) <
          idxOf ((fetchItems (some k) responses).get j).url
            ((rawsOf responses).map RawItem.url) := by
  have h0 := fetchItems_eq k responses hk
  have hcomp : (NewsItem.url ∘ mkNews) = RawItem.url := by
    funext it
    rfl
  have hpw : (fetchItems (some k) responses).Pairwise
      (fun x y => idxOf x.url ((rawsOf responses).map RawItem.url) <
        idxOf y.url ((rawsOf responses).map RawItem.url)) := by
    rw [h0]
    refine List.Pairwise.sublist (List.take_sublist _ _) ?_
    refine List.pairwise_map.mpr ?_
    exact pairwise_firstDedupS (rawsOf responses) []
  refine ⟨h0, ?_, ?_, ?_⟩
  · rw [h0, List.map_take, List.map_map, hcomp]
    exact List.Nodup.sublist (List.take_sublist _ _)
      (nodup_firstDedupS_urls [] (rawsOf responses))
  · rw [h0]
    simp [List.length_take]
  · intro i j
    constructor
    · intro hij
      exact List.pairwise_iff_get.mp hpw i j hij
    · intro hidx
      rcases lt_trichotomy i j with h | h | h
      · exact h
      · exfalso
        rw [h] at hidx
        exact lt_irrefl _ hidx
      · exact absurd hidx (Nat.lt_asymm (List.pairwise_iff_get.mp hpw j i h))

theorem fetch_dedup_invariant_witness :
    (['k'] : List Char) ≠ [] ∧
    (fetchItems (some ['k']) c7rs =
        ((firstDedupS [] (rawsOf c7rs)).map mkNews).take 10 ∧
      ((fetchItems (some ['k']) c7rs).map NewsItem.url).Nodup ∧
      (fetchItems (some ['k']) c7rs).length ≤ 10 ∧
      ∀ i j : Fin (fetchItems (some ['k']) c7rs).length,
        i < j ↔
          idxOf ((fetchItems (some ['k']) c7rs).get i).url
              ((rawsOf c7rs).map RawItem.url) <
            idxOf ((fetchItems (some ['k']) c7rs).get j).url
              ((rawsOf c7rs).map RawItem.url)) :=
  ⟨by decide, fetch_dedup_invariant ['k'] c7rs (by decide)⟩

theorem containsSub_of_isPre (pat s : List Char)
    (h : pat.isPrefixOf s = true) : containsSub pat s = true := by
  unfold containsSub
  cases s with
  | nil =>
    unfold findSub
    rw [if_pos h]
    rfl
  | cons c t =>
    unfold findSub
    rw [if_pos h]
    rfl

theorem containsSub_cons (pat : List Char) (a : Char) (t : List Char)
    (h : containsSub pat t = true) : containsSub pat (a :: t) = true := by
  unfold containsSub at h ⊢
  unfold findSub
  by_cases hp : pat.isPrefixOf (a :: t) = true
  · rw [if_pos hp]
    rfl
  · rw [if_neg hp]
    cases hf : findSub pat t with
    | none => rw [hf] at h; simp at h
    | some i => rfl

theorem findSub_none_of_not_contains (pat s : List Char)
    (h : containsSub pat s = false) : findSub pat s = none := by
  unfold containsSub at h
  cases hf : findSub pat s with
  | none => rfl
  | some i => rw [hf] at h; simp at h

/-- The first occurrence of `pat` in `pre ++ rest` is at `pre.length`
whenever `pat` begins `rest` and no occurrence fits before the boundary
(occurrences starting inside `pre` reach at most `pat.length - 1`
characters into `rest`, so the hypothesis rules them all out). -/
theorem findSub_spec (pat pre rest : List Char)
    (hocc : pat.isPrefixOf rest = true)
    (hbefore : containsSub pat (pre ++ rest.take (pat.length - 1)) = false) :
    findSub pat (pre ++ rest) = some pre.length := by
  induction pre with
  | nil =>
    show findSub pat ([] ++ rest) = some 0
    rw [List.nil_append]
    cases rest with
    | nil =>
      unfold findSub
      rw [if_pos hocc]
    | cons c t =>
      unfold findSub
      rw [if_pos hocc]
  | cons a pre' ih =>
    have h1 : (a :: (pre' ++ rest)).take pat.length =
        (a :: (pre' ++ rest.take (pat.length - 1))).take pat.length := by
      cases hn : pat.length with
      | zero => rfl
      | succ m =>
        simp only [List.take_succ_cons]
        rw [List.take_append_eq_append_take, List.take_append_eq_append_take,
          List.take_take]
        have hmin : min (m - pre'.length) (pat.length - 1) = m - pre'.length := by
          omega
        rw [hn] at hmin
        simp [hmin]
    have hnp : ¬ pat.isPrefixOf (a :: (pre' ++ rest)) = true := by
      intro hp
      apply absurd hbefore
      simp only [Bool.not_eq_false]
      have hpre2 : pat.isPrefixOf (a :: (pre' ++ rest.take (pat.length - 1))) = true := by
        rw [List.isPrefixOf_iff_prefix] at hp ⊢
        rw [List.prefix_iff_eq_take] at hp ⊢
        exact hp.trans h1
      exact containsSub_of_isPre _ _ hpre2
    have hb' : containsSub pat (pre' ++ rest.take (pat.length - 1)) = false := by
      cases hc : containsSub pat (pre' ++ rest.take (pat.length - 1)) with
      | false => rfl
      | true =>
        exfalso
        have h2 : containsSub pat ((a :: pre') ++ rest.take (pat.length - 1)) = true :=
          containsSub_cons pat a _ hc
        rw [hbefore] at h2
        exact Bool.false_ne_true h2
    show findSub pat ((a :: pre') ++ rest) = some (a :: pre').length
    rw [List.cons_append]
    unfold findSub
    rw [if_neg hnp, ih hb']
    rfl

theorem isPre_append (l x : List Char) : l.isPrefixOf (l ++ x) = true := by
  rw [List.isPrefixOf_iff_prefix]
  exact List.prefix_append l x

/-- The concrete reply refuting C2 as stated: it contains a complete fenced
block `A```json[1]``` `, but the closing fence is immediately followed by
a backtick and the letters `json`, so the text contains a second
(non-overlapping) occurrence of ` ```json ` starting one character after
the true closing fence.  Python's `split("```json")[1]` then ends at that
second occurrence and keeps the stray backtick. -/
def c2cexText : List Char := "A```json[1]````json!".data

/-- C2 counterexample: on `c2cexText` the first ` ```json ` marker ends at
index 8 and the next ` ``` ` marker begins at index 11 (offset 3 after the
marker), so the content between the markers is `[1]`; but the extraction
step yields the 4-character string `[1]` followed by a backtick — not the
content between the marker and the next ` ``` ` marker. -/
theorem extract_fenced_counterexample :
    containsSub jfence c2cexText = true ∧
    findSub jfence c2cexText = some 1 ∧
    findSub bt3 (c2cexText.drop 8) = some 3 ∧
    (c2cexText.drop 8).take 3 = "[1]".data ∧
    extract_json c2cexText = "[1]`".data ∧
    extract_json c2cexText ≠ (c2cexText.drop 8).take 3 := by
  refine ⟨rfl, rfl, rfl, rfl, rfl, ?_⟩
  decide

/-- C2 (amended): when the reply contains exactly one occurrence of the
` ```json ` marker followed (after fenced content free of ` ``` `) by a
closing ` ``` ` fence, the extraction step of `generate_posts` selects
exactly the content between the marker and that next ` ``` ` marker,
ignoring all surrounding prose, and the reply's parse is exactly the parse
of that content. -/
theorem extract_fenced_amended (pre mid post : List Char)
    (hpre : containsSub jfence (pre ++ jfence.take 6) = false)
    (huniq : containsSub jfence (mid ++ (bt3 ++ post)) = false)
    (hmid : containsSub bt3 (mid ++ bt3.take 2) = false) :
    extract_json (pre ++ (jfence ++ (mid ++ (bt3 ++ post)))) = mid ∧
    generate_posts (pre ++ (jfence ++ (mid ++ (bt3 ++ post)))) =
      (match jsonLoads mid with
       | some v => Except.ok v
       | none => Except.error errDecode) := by
  have hf : findSub jfence (pre ++ (jfence ++ (mid ++ (bt3 ++ post)))) =
      some pre.length := by
    apply findSub_spec
    · exact isPre_append _ _
    · have ht : (jfence ++ (mid ++ (bt3 ++ post))).take (jfence.length - 1) =
          jfence.take 6 := by
        have h6 : jfence.length - 1 = 6 := rfl
        rw [h6]
        exact List.take_append_of_le_length (by decide)
      rw [ht]
      exact hpre
  have hcontains : containsSub jfence (pre ++ (jfence ++ (mid ++ (bt3 ++ post)))) = true := by
    unfold containsSub
    rw [hf]
    rfl
  have hafter : afterFirst jfence (pre ++ (jfence ++ (mid ++ (bt3 ++ post)))) =
      mid ++ (bt3 ++ post) := by
    unfold afterFirst
    rw [hf]
    show List.drop (pre.length + jfence.length) _ = _
    rw [List.drop_append, List.drop_left]
  have hseg : splitSeg1 jfence (pre ++ (jfence ++ (mid ++ (bt3 ++ post)))) =
      mid ++ (bt3 ++ post) := by
    unfold splitSeg1
    simp only [hafter, findSub_none_of_not_contains _ _ huniq]
  have hbf : beforeFirst bt3 (mid ++ (bt3 ++ post)) = mid := by
    unfold beforeFirst
    have hf2 : findSub bt3 (mid ++ (bt3 ++ post)) = some mid.length := by
      apply findSub_spec
      · exact isPre_append _ _
      · have ht : (bt3 ++ post).take (bt3.length - 1) = bt3.take 2 := by
          have h2 : bt3.length - 1 = 2 := rfl
          rw [h2]
          exact List.take_append_of_le_length (by decide)
        rw [ht]
        exact hmid
    rw [hf2]
    show List.take mid.length (mid ++ (bt3 ++ post)) = mid
    exact List.take_left _ _
  have hx : extract_json (pre ++ (jfence ++ (mid ++ (bt3 ++ post)))) = mid := by
    unfold extract_json
    rw [hcontains]
    simp only [if_true]
    rw [hseg, hbf]
  refine ⟨hx, ?_⟩
  unfold generate_posts
  rw [hx]

/-- Concrete fenced reply for the amended-C2 witness. -/
def c2wPre : List Char := "Sure! Here you go:\n".data

/-- The fenced content of the witness reply. -/
def c2wMid : List Char := '\n' :: '{' :: ("\"a\": 1".data ++ ('}' :: ['\n']))

/-- The prose after the fenced block of the witness reply. -/
def c2wPost : List Char := "\nDone.".data

theorem extract_fenced_amended_witness :
    extract_json (c2wPre ++ (jfence ++ (c2wMid ++ (bt3 ++ c2wPost)))) = c2wMid ∧
    generate_posts (c2wPre ++ (jfence ++ (c2wMid ++ (bt3 ++ c2wPost)))) =
      Except.ok (Json.obj [(['a'], Json.num ['1'])]) := by
  have h := extract_fenced_amended c2wPre c2wMid c2wPost
    (by decide) (by decide) (by decide)
  refine ⟨h.1, ?_⟩
  rw [h.2]
  rfl

theorem firstIdx_spec (c : Char) (u v : List Char) (hu : c ∉ u) :
    firstIdx c (u ++ c :: v) = some u.length := by
  induction u with
  | nil =>
    show (if c = c then some 0 else (firstIdx c v).map (· + 1)) = some 0
    rw [if_pos rfl]
  | cons a u' ih =>
    simp only [List.mem_cons, not_or] at hu
    show (if a = c then some 0 else (firstIdx c (u' ++ c :: v)).map (· + 1)) =
      some (u'.length + 1)
    rw [if_neg (fun h => hu.1 h.symm), ih hu.2]
    rfl

theorem lastIdx_spec (c : Char) (w z : List Char) (hz : c ∉ z) :
    lastIdx c (w ++ c :: z) = some w.length := by
  induction w with
  | nil =>
    show lastIdx c (c :: z) = some 0
    unfold lastIdx
    rw [lastIdx_eq_none c z hz]
    show (if c = c then some 0 else none) = some 0
    rw [if_pos rfl]
  | cons a w' ih =>
    show lastIdx c (a :: (w' ++ c :: z)) = some (w'.length + 1)
    unfold lastIdx
    rw [ih]

theorem pyBound_natCast (n m : Nat) : pyBound n (m : Int) = min m n := by
  unfold pyBound
  rw [if_neg (Int.not_lt.mpr (Int.ofNat_nonneg m)), Int.toNat_ofNat]

/-- C3: on a reply with no ` ```json ` fence whose first `\x7b` is at index
`u.length` and whose last `\x7d` is at index `w.length`, the extraction
step selects exactly the substring from the first `\x7b` to the last
`\x7d` inclusive, and when that substring is well-formed JSON the reply
parses successfully to its value. -/
theorem extract_fallback_slice (u v w z : List Char)
    (hnf : containsSub jfence (u ++ '{' :: v) = false)
    (hu : '{' ∉ u)
    (heq : u ++ '{' :: v = w ++ '}' :: z)
    (hz : '}' ∉ z) :
    extract_json (u ++ '{' :: v) =
      ((u ++ '{' :: v).take (w.length + 1)).drop u.length ∧
    ∀ jv, jsonLoads (((u ++ '{' :: v).take (w.length + 1)).drop u.length) = some jv →
      generate_posts (u ++ '{' :: v) = Except.ok jv := by
  have hfind : pyFindChar '{' (u ++ '{' :: v) = (u.length : Int) := by
    unfold pyFindChar
    rw [firstIdx_spec _ _ _ hu]
  have hrfind : pyRFindChar '}' (u ++ '{' :: v) = (w.length : Int) := by
    rw [heq]
    unfold pyRFindChar
    rw [lastIdx_spec _ _ _ hz]
  have hlen1 : u.length ≤ (u ++ '{' :: v).length := by
    rw [List.length_append]
    omega
  have hlen2 : w.length + 1 ≤ (u ++ '{' :: v).length := by
    rw [heq, List.length_append, List.length_cons]
    omega
  have hx : extract_json (u ++ '{' :: v) =
      ((u ++ '{' :: v).take (w.length + 1)).drop u.length := by
    unfold extract_json
    rw [hnf]
    simp only [Bool.false_eq_true, if_false]
    rw [hfind, hrfind]
    unfold pySlice
    have hcast : ((w.length : Int) + 1) = ((w.length + 1 : Nat) : Int) := by
      push_cast
      ring
    rw [hcast, pyBound_natCast, pyBound_natCast,
      Nat.min_eq_left hlen1, Nat.min_eq_left hlen2]
  refine ⟨hx, ?_⟩
  intro jv hjv
  unfold generate_posts
  rw [hx, hjv]

/-- Prose before the JSON object in the C3 witness reply. -/
def c3u : List Char := "ok ".data

/-- Rest of the C3 witness reply after its first opening brace. -/
def c3v : List Char := "\"a\": 1".data ++ ('}' :: " end".data)

/-- Prefix of the C3 witness reply before its last closing brace. -/
def c3w : List Char := "ok ".data ++ ('{' :: "\"a\": 1".data)

/-- Suffix of the C3 witness reply after its last closing brace. -/
def c3z : List Char := " end".data

theorem extract_fallback_slice_witness :
    extract_json (c3u ++ '{' :: c3v) = '{' :: ("\"a\": 1".data ++ ['}']) ∧
    generate_posts (c3u ++ '{' :: c3v) =
      Except.ok (Json.obj [(['a'], Json.num ['1'])]) := by
  have h := extract_fallback_slice c3u c3v c3w c3z
    (by decide) (by decide) (by decide) (by decide)
  refine ⟨?_, ?_⟩
  · rw [h.1]
    rfl
  · exact h.2 _ rfl

/-- C4: a reply whose extracted substring is not valid JSON makes
`generate_posts` fail with the decode error, and — `main` having no handler
around the generation step — the run that had fetched a non-empty candidate
list terminates with that error, with no recovery and no publish attempt. -/
theorem generate_parse_error_fatal (reply k : List Char) (rs : List QueryOutcome)
    (po : Except (List Char) (List Char))
    (hjson : jsonLoads (extract_json reply) = none)
    (hne : fetchItems (some k) rs ≠ []) :
    generate_posts reply = Except.error errDecode ∧
    fetch_news (some k) rs = Except.ok (fetchItems (some k) rs, errLogsOf rs) ∧
    mainRun (some k) rs reply po =
      ⟨true, false, [], Except.error errDecode⟩ := by
  have hk : k ≠ [] := by
    intro h
    subst h
    exact hne rfl
  have hg : generate_posts reply = Except.error errDecode := by
    unfold generate_posts
    rw [hjson]
  refine ⟨hg, fetch_news_ok k rs hk, ?_⟩
  unfold mainRun
  rw [fetch_news_ok k rs hk]
  show (if fetchItems (some k) rs = [] then _ else _) = _
  rw [if_neg hne, hg]

/-- Concrete unparsable reply for the C4 witness. -/
def c4reply : List Char := "oops, no structured output today".data

/-- One successful single-item query for the C4 witness. -/
def c4rs : List QueryOutcome :=
  [Except.ok [{ title := "t".data, content := "c".data, url := "u".data }]]

theorem generate_parse_error_fatal_witness :
    generate_posts c4reply = Except.error errDecode ∧
    mainRun (some ['k']) c4rs c4reply (Except.ok "resp".data) =
      ⟨true, false, [], Except.error errDecode⟩ := by
  have h := generate_parse_error_fatal c4reply ['k'] c4rs (Except.ok "resp".data)
    rfl (by decide)
  exact ⟨h.1, h.2.2⟩

/-- C8: whenever `fetch_news` (its non-empty key present) returns an empty
list — every query failed or returned zero results — `main` returns early
and normally, and neither `generate_posts` nor `send_to_spreadsheet` is
invoked in that run. -/
theorem empty_fetch_halts (k reply : List Char) (rs : List QueryOutcome)
    (po : Except (List Char) (List Char)) (hk : k ≠ [])
    (hempty : fetchItems (some k) rs = []) :
    mainRun (some k) rs reply po = ⟨false, false, [], Except.ok ()⟩ := by
  unfold mainRun
  rw [fetch_news_ok k rs hk]
  show (if fetchItems (some k) rs = [] then _ else _) = _
  rw [if_pos hempty]

theorem empty_fetch_halts_witness :
    (['k'] : List Char) ≠ [] ∧
    fetchItems (some ['k']) [Except.error "down".data] = [] ∧
    mainRun (some ['k']) [Except.error "down".data] "whatever".data
        (Except.ok "r".data) = ⟨false, false, [], Except.ok ()⟩ :=
  ⟨by decide, rfl, empty_fetch_halts ['k'] "whatever".data [Except.error "down".data]
    (Except.ok "r".data) (by decide) rfl⟩
